import Mathlib

/-!
Verification of the streaming chat core of `src/engine.py` (the `call_llm`
transport and the `ChatSession` class), via a shallow embedding.

Modelling conventions:
* A well-formed wire message (`{"role": r, "content": c}` with string values)
  is `Message`.  An arbitrary history dict entry, whose `role`/`content` keys
  may be absent or hold non-string Python values, is `RawMessage` with
  `PyVal` standing for "some Python value that is or is not a string".
* The newline-delimited streaming response body is a `List Line`: a line is
  blank, fails JSON decoding, or decodes to an object abstracted as `Chunk`
  (its `error` field when present, whether `done` is literally `true`, and
  the `message.content` string when present).
* Python generators are embedded denotationally.  `process_lines` gives the
  fragments the transport generator yields and how it ends (normal stop or a
  raised `RuntimeError`).  A consumer of `ChatSession.ask_stream` is
  abstracted by the number of `next()` calls it makes (`pulls`); the
  generator body of `_gen` runs nothing before the first pull, delivers the
  i-th fragment on the i-th pull, and on the pull past the last fragment
  either raises (transport error) or appends the two history entries and
  stops.  `ask_stream` returns the delivered fragments, the history after
  the attempt, whether an exception propagated, and how many HTTP POSTs
  were issued.
* Configuration fields never read by any claim (`base_url`, `temperature`,
  `max_tokens`, `terminal_logging`, `model`) are omitted from the session
  state; they only shape the payload fields no claim mentions.
-/

namespace Engine

/-- A well-formed chat message dict `{"role": r, "content": c}`. -/
structure Message where
  role : String
  content : String
deriving Repr, DecidableEq

/-- A Python value found under a dict key: either a `str` or anything else. -/
inductive PyVal where
  | str (s : String)
  | nonStr
deriving Repr, DecidableEq

/-- An arbitrary history entry: each key may be absent (`none`) or hold any
Python value. -/
structure RawMessage where
  role : Option PyVal := none
  content : Option PyVal := none
deriving Repr, DecidableEq

/-- A well-formed message viewed as a raw dict entry. -/
def Message.toRaw (m : Message) : RawMessage :=
  { role := some (.str m.role), content := some (.str m.content) }

/-- The body of the history loop in `call_llm` (engine.py lines 46-53): an
entry is kept only when `role` and `content` are both strings and `role` is
one of `user`, `assistant`, `system`; otherwise the loop `continue`s. -/
def keep_history_entry (m : RawMessage) : Option Message :=
  match m.role, m.content with
  | some (.str role), some (.str content) =>
    if role = "user" ∨ role = "assistant" ∨ role = "system" then
      some { role := role, content := content }
    else
      none
  | _, _ => none

/-- Construction of the outbound `messages` list in `call_llm` (engine.py
lines 42-54): optional system turn (Python truthiness: only a non-empty
`system_prompt` is included), then the filtered history in order, then the
new user turn. -/
def call_llm_messages (system_prompt : String) (history : List RawMessage)
    (prompt : String) : List Message :=
  let messages : List Message :=
    if system_prompt = "" then [] else [{ role := "system", content := system_prompt }]
  let messages := history.foldl
    (fun acc m =>
      match keep_history_entry m with
      | some mm => acc ++ [mm]
      | none => acc)
    messages
  messages ++ [{ role := "user", content := prompt }]

/-- One decoded JSON stream object, abstracted to the three fields
`call_llm`'s generator reads: `error` (the field's string value when
present), `done` (whether the field is literally `true`), and `content`
(the `message.content` string when the nested field is present; `none`
also covers a falsy/absent `message` object). -/
structure Chunk where
  error : Option String := none
  done : Bool := false
  content : Option String := none
deriving Repr, DecidableEq

/-- Python truthiness of `chunk.get("error")`: present and non-empty. -/
def Chunk.errTruthy (c : Chunk) : Bool :=
  match c.error with
  | some s => !(s == "")
  | none => false

/-- One raw line of the streaming response body. -/
inductive Line where
  | blank
  | malformed
  | chunk (c : Chunk)
deriving Repr, DecidableEq

/-- How the transport generator ends: normal stop, or a raised
`RuntimeError` carrying a message. -/
inductive StreamEnd where
  | ok
  | err (msg : String)
deriving Repr, DecidableEq

/-- The line loop of `call_llm`'s streaming `_generator` (engine.py lines
71-84): blank lines and JSON-decode failures are skipped; a truthy `error`
field raises; `done is True` breaks; otherwise a non-empty
`message.content` is yielded.  Returns the yielded fragments in order and
the way the generator ends. -/
def process_lines : List Line → List String × StreamEnd
  | [] => ([], .ok)
  | .blank :: rest => process_lines rest
  | .malformed :: rest => process_lines rest
  | .chunk c :: rest =>
    if c.errTruthy then
      ([], .err ("Ollama error: " ++ c.error.getD ""))
    else if c.done then
      ([], .ok)
    else
      match c.content with
      | some s =>
        if s = "" then process_lines rest
        else
          let r := process_lines rest
          (s :: r.1, r.2)
      | none => process_lines rest

/-- The HTTP streaming response: status code and body lines. -/
structure StreamResponse where
  status : Nat
  lines : List Line
deriving Repr, DecidableEq

/-- The whole streaming `_generator` of `call_llm` (engine.py lines 67-84):
a non-200 status raises before anything is yielded; otherwise the body
lines are processed in order. -/
def stream_generator (resp : StreamResponse) : List String × StreamEnd :=
  if resp.status ≠ 200 then
    ([], .err ("Ollama HTTP " ++ toString resp.status))
  else
    process_lines resp.lines

/-- Session state of `ChatSession` (engine.py lines 95-112): the fields the
claims read.  `history` starts empty and is only ever appended to with
well-formed entries, so `List Message` is the type of reachable states. -/
structure ChatSession where
  system_prompt : String
  history : List Message
deriving Repr, DecidableEq

/-- Outcome of one attempt to consume the generator returned by
`ChatSession.ask_stream`. -/
structure AskStreamRun where
  delivered : List String
  history : List Message
  raised : Bool
  posts : Nat
deriving Repr, DecidableEq

/-- Denotation of `ChatSession.ask_stream` (engine.py lines 114-133) run
against a transport response `resp` by a consumer that makes `pulls` calls
to `next()`.  With zero pulls the generator body never starts: no POST, no
reads, no append.  Otherwise the POST is issued on the first pull; the
consumer receives one fragment per pull; on the pull past the last
fragment the transport either raises (exception propagates, no append) or
stops normally, upon which the user turn and the joined assistant turn are
appended.  Stopping with pulls at or below the fragment count abandons the
generator before the loop finishes, so the appends never run. -/
def ask_stream (s : ChatSession) (prompt : String) (resp : StreamResponse)
    (pulls : Nat) : AskStreamRun :=
  let r := stream_generator resp
  let fs := r.1
  if pulls = 0 then
    { delivered := [], history := s.history, raised := false, posts := 0 }
  else if fs.length < pulls then
    match r.2 with
    | .ok =>
      { delivered := fs
        history := s.history ++
          [{ role := "user", content := prompt },
           { role := "assistant", content := String.join fs }]
        raised := false
        posts := 1 }
    | .err _ =>
      { delivered := fs, history := s.history, raised := true, posts := 1 }
  else
    { delivered := fs.take pulls, history := s.history, raised := false, posts := 1 }

/-- The non-streaming HTTP response: status code and, when the body parses
as JSON, the `message.content` string when present (`none` inside also
covers a falsy `message` object, per `data.get("message") or {}`); an
outer `none` is a body `resp.json()` fails on. -/
structure NonStreamResponse where
  status : Nat
  body : Option (Option String)
deriving Repr, DecidableEq

/-- The non-streaming branch of `call_llm` (engine.py lines 87-92): a
non-200 status raises; an unparseable body raises from `resp.json()`;
otherwise `msg.get("content", "")` is returned. -/
def call_llm_nostream (resp : NonStreamResponse) : Except String String :=
  if resp.status ≠ 200 then
    .error ("Ollama HTTP " ++ toString resp.status)
  else
    match resp.body with
    | none => .error "JSONDecodeError"
    | some c => .ok (c.getD "")

/-- Outcome of `ChatSession.ask`: the returned reply or the propagated
exception, and the history after the call. -/
structure AskRun where
  result : Except String String
  history : List Message
deriving Repr

/-- Denotation of `ChatSession.ask` (engine.py lines 135-150): on success
the reply is returned and the user/assistant pair appended; a raise from
`call_llm` propagates before the appends run. -/
def ask (s : ChatSession) (prompt : String) (resp : NonStreamResponse) : AskRun :=
  match call_llm_nostream resp with
  | .error e => { result := .error e, history := s.history }
  | .ok reply =>
    { result := .ok reply
      history := s.history ++
        [{ role := "user", content := prompt },
         { role := "assistant", content := reply }] }

/-- A line the generator's loop passes over without raising or breaking:
blank, malformed, or a chunk with falsy `error` and `done` not `True`. -/
def Line.passes : Line → Bool
  | .blank => true
  | .malformed => true
  | .chunk c => !c.errTruthy && !c.done

/-- The fragment a passed-over line contributes: the chunk's non-empty
content, if any. -/
def Line.fragment : Line → Option String
  | .chunk c =>
    match c.content with
    | some s => if s = "" then none else some s
    | none => none
  | _ => none

/-- Histories reachable from a fresh session through any sequence of `ask`
and `ask_stream` calls, against arbitrary transport responses and consumer
behaviours. -/
inductive Reachable : ChatSession → Prop where
  | init (sp : String) : Reachable { system_prompt := sp, history := [] }
  | askStep (s : ChatSession) (p : String) (resp : NonStreamResponse)
      (h : Reachable s) :
      Reachable { system_prompt := s.system_prompt, history := (ask s p resp).history }
  | askStreamStep (s : ChatSession) (p : String) (resp : StreamResponse)
      (pulls : Nat) (h : Reachable s) :
      Reachable { system_prompt := s.system_prompt
                  history := (ask_stream s p resp pulls).history }

/-! ## Helper lemmas -/

/-- The history fold of `call_llm` appends exactly the kept entries, in
order, after whatever is already accumulated. -/
theorem foldl_keep_eq_filterMap (h : List RawMessage) :
    ∀ acc : List Message,
      h.foldl
        (fun acc m =>
          match keep_history_entry m with
          | some mm => acc ++ [mm]
          | none => acc)
        acc =
      acc ++ h.filterMap keep_history_entry := by
  induction h with
  | nil => intro acc; simp
  | cons m h ih =>
    intro acc
    simp only [List.foldl_cons, List.filterMap_cons]
    cases hk : keep_history_entry m with
    | none => simp [hk, ih]
    | some mm => simp [hk, ih]

/-- The outbound message list splits into system part, filtered history,
and the trailing user turn. -/
theorem call_llm_messages_split (sp p : String) (h : List RawMessage) :
    call_llm_messages sp h p =
      (if sp = "" then [] else [{ role := "system", content := sp }]) ++
        h.filterMap keep_history_entry ++ [{ role := "user", content := p }] := by
  simp only [call_llm_messages]
  rw [foldl_keep_eq_filterMap]

/-- Processing a body that starts with passed-over lines yields those
lines' fragments first, and then behaves as the remainder alone. -/
theorem process_lines_passes_front (L1 rest : List Line)
    (h : ∀ l ∈ L1, l.passes = true) :
    process_lines (L1 ++ rest) =
      (L1.filterMap Line.fragment ++ (process_lines rest).1,
       (process_lines rest).2) := by
  induction L1 with
  | nil => simp
  | cons l L1 ih =>
    have hl := h l (by simp)
    have hrest : ∀ x ∈ L1, x.passes = true := fun x hx => h x (by simp [hx])
    cases l with
    | blank => simpa [process_lines, Line.fragment] using ih hrest
    | malformed => simpa [process_lines, Line.fragment] using ih hrest
    | chunk c =>
      simp only [Line.passes, Bool.and_eq_true, Bool.not_eq_true'] at hl
      cases hc : c.content with
      | none => simp [process_lines, hl.1, hl.2, hc, Line.fragment, ih hrest]
      | some s =>
        by_cases hs : s = "" <;>
          simp [process_lines, hl.1, hl.2, hc, hs, Line.fragment, ih hrest]

/-- Any `ask` call either leaves history untouched or appends exactly a
user/assistant pair. -/
theorem ask_history_shape (s : ChatSession) (p : String)
    (resp : NonStreamResponse) :
    (ask s p resp).history = s.history ∨
    ∃ reply, (ask s p resp).history =
      s.history ++ [{ role := "user", content := p },
                    { role := "assistant", content := reply }] := by
  unfold ask
  cases call_llm_nostream resp with
  | error e => left; rfl
  | ok reply => right; exact ⟨reply, rfl⟩

/-- Any `ask_stream` attempt either leaves history untouched or appends
exactly a user/assistant pair. -/
theorem ask_stream_history_shape (s : ChatSession) (p : String)
    (resp : StreamResponse) (pulls : Nat) :
    (ask_stream s p resp pulls).history = s.history ∨
    ∃ reply, (ask_stream s p resp pulls).history =
      s.history ++ [{ role := "user", content := p },
                    { role := "assistant", content := reply }] := by
  simp only [ask_stream]
  split
  · left; rfl
  · split
    · split
      · right; exact ⟨_, rfl⟩
      · left; rfl
    · left; rfl

/-! ## Claim theorems -/

/-- C1: the generator returned by `ask_stream` commits to history only on
normal exhaustion: if the attempt raised (transport failure at any point,
the exception propagating to the consumer), or if the consumer made no
more pulls than there were fragments (stopping or closing the generator
before exhaustion), the history after the attempt equals the history
before it. -/
theorem ask_stream_abandon_or_raise_leaves_history
    (s : ChatSession) (p : String) (resp : StreamResponse) (pulls : Nat)
    (h : (ask_stream s p resp pulls).raised = true ∨
         pulls ≤ (stream_generator resp).1.length) :
    (ask_stream s p resp pulls).history = s.history := by
  rcases h with hr | hle
  · by_cases h0 : pulls = 0
    · simp [ask_stream, h0]
    · by_cases hlt : (stream_generator resp).1.length < pulls
      · simp only [ask_stream, h0, if_false, hlt, if_true]
        cases he : (stream_generator resp).2 with
        | ok =>
          exfalso
          simp only [ask_stream, h0, if_false, hlt, if_true, he] at hr
          exact Bool.false_ne_true hr
        | err m => rfl
      · simp [ask_stream, h0, hlt]
  · have hlt : ¬ (stream_generator resp).1.length < pulls := by omega
    by_cases h0 : pulls = 0
    · simp [ask_stream, h0]
    · simp [ask_stream, h0, hlt]

/-- C1 witness: a transport stream with three fragments abandoned after a
single pull leaves an empty history empty. -/
theorem ask_stream_abandon_or_raise_leaves_history_witness :
    (ask_stream { system_prompt := "s", history := [] } "q"
      { status := 200,
        lines := [Line.chunk { content := some "a" },
                  Line.chunk { content := some "b" },
                  Line.chunk { content := some "c" },
                  Line.chunk { done := true }] } 1).history = [] :=
  ask_stream_abandon_or_raise_leaves_history _ _ _ _ (Or.inr (by decide))

/-- C2: consuming the `ask_stream` generator to exhaustion over a stream
that ends normally delivers exactly the transport's fragments in order and
appends exactly the user turn and the joined assistant turn, the earlier
history kept unchanged as a prefix. -/
theorem ask_stream_exhaustion_commits_in_order
    (s : ChatSession) (p : String) (resp : StreamResponse) (pulls : Nat)
    (hok : (stream_generator resp).2 = .ok)
    (hex : (stream_generator resp).1.length < pulls) :
    (ask_stream s p resp pulls).delivered = (stream_generator resp).1 ∧
    (ask_stream s p resp pulls).history =
      s.history ++ [{ role := "user", content := p },
                    { role := "assistant",
                      content := String.join (stream_generator resp).1 }] := by
  have h0 : pulls ≠ 0 := by omega
  simp [ask_stream, h0, hex, hok]

/-- C2 witness: the fragments `Hel`, `lo`, ` world` are delivered in order
and committed as the single assistant turn `Hello world`. -/
theorem ask_stream_exhaustion_commits_in_order_witness :
    (ask_stream { system_prompt := "s", history := [] } "hi"
      { status := 200,
        lines := [Line.chunk { content := some "Hel" },
                  Line.chunk { content := some "lo" },
                  Line.chunk { content := some " world" },
                  Line.chunk { done := true }] } 4).delivered =
      ["Hel", "lo", " world"] ∧
    (ask_stream { system_prompt := "s", history := [] } "hi"
      { status := 200,
        lines := [Line.chunk { content := some "Hel" },
                  Line.chunk { content := some "lo" },
                  Line.chunk { content := some " world" },
                  Line.chunk { done := true }] } 4).history =
      [{ role := "user", content := "hi" },
       { role := "assistant", content := "Hello world" }] := by
  have h := ask_stream_exhaustion_commits_in_order
    { system_prompt := "s", history := [] } "hi"
    { status := 200,
      lines := [Line.chunk { content := some "Hel" },
                Line.chunk { content := some "lo" },
                Line.chunk { content := some " world" },
                Line.chunk { done := true }] } 4 (by decide) (by decide)
  exact ⟨h.1.trans (by decide), h.2.trans (by decide)⟩

/-- Well-formed history entries round-trip through the raw-entry filter. -/
theorem keep_history_entry_toRaw (m : Message)
    (hm : m.role = "user" ∨ m.role = "assistant" ∨ m.role = "system") :
    keep_history_entry m.toRaw = some m := by
  simp [keep_history_entry, Message.toRaw, hm]

/-- A history of well-formed turns passes the filter unchanged. -/
theorem filterMap_keep_toRaw (h : List Message)
    (hok : ∀ m ∈ h, m.role = "user" ∨ m.role = "assistant" ∨ m.role = "system") :
    (h.map Message.toRaw).filterMap keep_history_entry = h := by
  induction h with
  | nil => simp
  | cons m h ih =>
    have hm := hok m (by simp)
    have hrest : ∀ x ∈ h, x.role = "user" ∨ x.role = "assistant" ∨ x.role = "system" :=
      fun x hx => hok x (by simp [hx])
    simp [keep_history_entry_toRaw m hm, ih hrest]

/-- C3: the outbound message list is the system turn first (the system
prompt being non-empty), then every well-formed prior history turn
unchanged and in original order, then the new user turn last.  In
particular a third request over a four-turn history has six entries with
role sequence system, user, assistant, user, assistant, user (witness). -/
theorem request_messages_order (sp p : String) (h : List Message)
    (hsp : sp ≠ "")
    (hok : ∀ m ∈ h, m.role = "user" ∨ m.role = "assistant" ∨ m.role = "system") :
    call_llm_messages sp (h.map Message.toRaw) p =
      { role := "system", content := sp } ::
        (h ++ [{ role := "user", content := p }]) := by
  rw [call_llm_messages_split, filterMap_keep_toRaw h hok]
  simp [hsp]

/-- C3 witness: after two successful exchanges (history `user q1`,
`assistant r1`, `user q2`, `assistant r2`) and with a system prompt set,
the third request's message list has exactly six entries in the stated
role order. -/
theorem request_messages_order_witness :
    call_llm_messages "sys"
      ([{ role := "user", content := "q1" }, { role := "assistant", content := "r1" },
        { role := "user", content := "q2" }, { role := "assistant", content := "r2" }].map
        Message.toRaw) "q3" =
      [{ role := "system", content := "sys" },
       { role := "user", content := "q1" }, { role := "assistant", content := "r1" },
       { role := "user", content := "q2" }, { role := "assistant", content := "r2" },
       { role := "user", content := "q3" }] ∧
    (call_llm_messages "sys"
      ([{ role := "user", content := "q1" }, { role := "assistant", content := "r1" },
        { role := "user", content := "q2" }, { role := "assistant", content := "r2" }].map
        Message.toRaw) "q3").length = 6 := by
  have h := request_messages_order "sys" "q3"
    [{ role := "user", content := "q1" }, { role := "assistant", content := "r1" },
     { role := "user", content := "q2" }, { role := "assistant", content := "r2" }]
    (by decide) (by decide)
  exact ⟨h.trans (by decide), by rw [h]; rfl⟩

/-- C4: a decoded line with a truthy `error` field raises on the step that
reads it: the stream yields exactly the fragments of the preceding
passed-over lines and then ends in the raised error, the remaining lines
never processed; a consumer of `ask_stream` that pulls far enough to reach
the error sees the exception propagate and no history entry is appended. -/
theorem stream_error_line_raises_and_no_commit
    (s : ChatSession) (p : String) (L1 L2 : List Line) (c : Chunk) (pulls : Nat)
    (hpass : ∀ l ∈ L1, l.passes = true)
    (herr : c.errTruthy = true)
    (hpull : (stream_generator { status := 200, lines := L1 ++ .chunk c :: L2 }).1.length
      < pulls) :
    stream_generator { status := 200, lines := L1 ++ .chunk c :: L2 } =
      (L1.filterMap Line.fragment, .err ("Ollama error: " ++ c.error.getD "")) ∧
    (ask_stream s p { status := 200, lines := L1 ++ .chunk c :: L2 } pulls).raised
      = true ∧
    (ask_stream s p { status := 200, lines := L1 ++ .chunk c :: L2 } pulls).history
      = s.history := by
  have hgen : stream_generator { status := 200, lines := L1 ++ .chunk c :: L2 } =
      (L1.filterMap Line.fragment, .err ("Ollama error: " ++ c.error.getD "")) := by
    rw [show stream_generator { status := 200, lines := L1 ++ .chunk c :: L2 } =
        process_lines (L1 ++ .chunk c :: L2) from by simp [stream_generator]]
    rw [process_lines_passes_front L1 (.chunk c :: L2) hpass]
    simp [process_lines, herr]
  have h0 : pulls ≠ 0 := by omega
  have hpull' : (L1.filterMap Line.fragment).length < pulls := by
    rw [hgen] at hpull
    exact hpull
  refine ⟨hgen, ?_, ?_⟩ <;> simp [ask_stream, h0, hgen, hpull']

/-- C4 witness: the line `{"error": "model not found"}` between two content
lines yields only the first fragment, ends the stream in the raised error,
and an exchange that hits it appends nothing. -/
theorem stream_error_line_raises_and_no_commit_witness :
    stream_generator
      { status := 200,
        lines := [Line.chunk { content := some "a" },
                  Line.chunk { error := some "model not found" },
                  Line.chunk { content := some "b" }] } =
      (["a"], .err "Ollama error: model not found") ∧
    (ask_stream { system_prompt := "s", history := [] } "q"
      { status := 200,
        lines := [Line.chunk { content := some "a" },
                  Line.chunk { error := some "model not found" },
                  Line.chunk { content := some "b" }] } 2).raised = true ∧
    (ask_stream { system_prompt := "s", history := [] } "q"
      { status := 200,
        lines := [Line.chunk { content := some "a" },
                  Line.chunk { error := some "model not found" },
                  Line.chunk { content := some "b" }] } 2).history = [] := by
  have h := stream_error_line_raises_and_no_commit
    { system_prompt := "s", history := [] } "q"
    [Line.chunk { content := some "a" }] [Line.chunk { content := some "b" }]
    { error := some "model not found" } 2 (by decide) (by decide) (by decide)
  exact ⟨h.1.trans (by decide), h.2.1, h.2.2⟩

/-- C5: a received line that is blank or fails JSON decoding is skipped
without raising and without terminating the stream — processing a body
with such a line inserted anywhere equals processing the body without it;
concretely, a non-JSON line between two content-delta lines yields exactly
the two fragments, in order, ending normally. -/
theorem malformed_and_blank_lines_skipped :
    (∀ L1 L2 : List Line,
      process_lines (L1 ++ Line.malformed :: L2) = process_lines (L1 ++ L2)) ∧
    (∀ L1 L2 : List Line,
      process_lines (L1 ++ Line.blank :: L2) = process_lines (L1 ++ L2)) ∧
    process_lines [Line.chunk { content := some "a" }, Line.malformed,
      Line.chunk { content := some "b" }] = (["a", "b"], StreamEnd.ok) := by
  have key : ∀ l0 : Line, l0.passes = true → l0.fragment = none →
      ∀ L1 L2 : List Line, process_lines (L1 ++ l0 :: L2) = process_lines (L1 ++ L2) := by
    intro l0 h1 h2 L1
    induction L1 with
    | nil =>
      intro L2
      cases l0 with
      | blank => simp [process_lines]
      | malformed => simp [process_lines]
      | chunk c =>
        simp only [Line.passes, Bool.and_eq_true, Bool.not_eq_true'] at h1
        simp only [Line.fragment] at h2
        cases hc : c.content with
        | none => simp [process_lines, h1.1, h1.2, hc]
        | some s =>
          rw [hc] at h2
          by_cases hs : s = ""
          · simp [process_lines, h1.1, h1.2, hc, hs]
          · simp [hs] at h2
    | cons l L1 ih =>
      intro L2
      cases l with
      | blank => simp [process_lines, ih]
      | malformed => simp [process_lines, ih]
      | chunk c =>
        by_cases he : c.errTruthy
        · simp [process_lines, he]
        · by_cases hd : c.done
          · simp [process_lines, he, hd]
          · cases hc : c.content with
            | none => simp [process_lines, he, hd, hc, ih]
            | some s =>
              by_cases hs : s = "" <;> simp [process_lines, he, hd, hc, hs, ih]
  exact ⟨key Line.malformed (by decide) (by decide),
         key Line.blank (by decide) (by decide),
         by decide⟩

/-- C6: a decoded line whose `done` flag is true stops iteration normally
after exactly the fragments of the preceding passed-over lines — for
every value of that line's own content field and every list of later lines
(so content on the done line is never yielded and no later line is
processed); and on a non-terminating line the `message.content` field
contributes a fragment exactly when it is present and non-empty. -/
theorem done_line_stops_and_content_gating :
    (∀ (L1 L2 : List Line) (c : Chunk), (∀ l ∈ L1, l.passes = true) →
      c.errTruthy = false → c.done = true →
      process_lines (L1 ++ Line.chunk c :: L2) = (L1.filterMap Line.fragment, .ok)) ∧
    (∀ (c : Chunk) (rest : List Line), c.errTruthy = false → c.done = false →
      (process_lines (Line.chunk c :: rest)).1 =
        (match c.content with
         | some s => if s = "" then [] else [s]
         | none => []) ++ (process_lines rest).1) := by
  constructor
  · intro L1 L2 c hpass herr hdone
    rw [process_lines_passes_front L1 (Line.chunk c :: L2) hpass]
    simp [process_lines, herr, hdone]
  · intro c rest herr hdone
    cases hc : c.content with
    | none => simp [process_lines, herr, hdone, hc]
    | some s =>
      by_cases hs : s = "" <;> simp [process_lines, herr, hdone, hc, hs]

/-- C6 witness: a done line carrying content after one fragment stops the
stream at that fragment without yielding its own content, and an
empty-content line contributes no fragment while a non-empty one does. -/
theorem done_line_stops_and_content_gating_witness :
    process_lines [Line.chunk { content := some "a" },
      Line.chunk { done := true, content := some "hidden" },
      Line.chunk { content := some "b" }] = (["a"], .ok) ∧
    (process_lines [Line.chunk { content := some "" },
      Line.chunk { content := some "c" }]).1 = ["c"] := by
  have h1 := done_line_stops_and_content_gating.1
    [Line.chunk { content := some "a" }] [Line.chunk { content := some "b" }]
    { done := true, content := some "hidden" } (by decide) (by decide) (by decide)
  have h2 := done_line_stops_and_content_gating.2
    { content := some "" } [Line.chunk { content := some "c" }] (by decide) (by decide)
  exact ⟨h1.trans (by decide), h2.trans (by decide)⟩

/-- C7: `ask` on a non-success HTTP status raises and leaves history
unchanged; on success with a parsed body it returns the assistant content
as a single string — the empty string when the field is absent — and
appends exactly the user turn then the assistant turn with that reply. -/
theorem ask_status_and_success_behaviour
    (s : ChatSession) (p : String) (resp : NonStreamResponse) :
    (resp.status ≠ 200 →
      (ask s p resp).result = .error ("Ollama HTTP " ++ toString resp.status) ∧
      (ask s p resp).history = s.history) ∧
    (∀ c : Option String, resp.status = 200 → resp.body = some c →
      (ask s p resp).result = .ok (c.getD "") ∧
      (ask s p resp).history =
        s.history ++ [{ role := "user", content := p },
                      { role := "assistant", content := c.getD "" }]) := by
  constructor
  · intro hst
    simp [ask, call_llm_nostream, hst]
  · intro c hst hb
    simp [ask, call_llm_nostream, hst, hb]

/-- C7 witness: a 500 status raises and appends nothing; a 200 body whose
content field is absent returns the empty string and commits the pair. -/
theorem ask_status_and_success_behaviour_witness :
    (ask { system_prompt := "s", history := [{ role := "user", content := "a" }] }
      "p" { status := 500, body := some (some "x") }).result =
      .error "Ollama HTTP 500" ∧
    (ask { system_prompt := "s", history := [{ role := "user", content := "a" }] }
      "p" { status := 500, body := some (some "x") }).history =
      [{ role := "user", content := "a" }] ∧
    (ask { system_prompt := "s", history := [] } "p"
      { status := 200, body := some none }).result = .ok "" ∧
    (ask { system_prompt := "s", history := [] } "p"
      { status := 200, body := some none }).history =
      [{ role := "user", content := "p" }, { role := "assistant", content := "" }] := by
  have h1 := (ask_status_and_success_behaviour
    { system_prompt := "s", history := [{ role := "user", content := "a" }] }
    "p" { status := 500, body := some (some "x") }).1 (by decide)
  have h2 := (ask_status_and_success_behaviour
    { system_prompt := "s", history := [] } "p"
    { status := 200, body := some none }).2 none rfl rfl
  refine ⟨h1.1.trans ?_, h1.2, h2.1, h2.2.trans (by decide)⟩
  norm_num
  decide

/-- C8: building the outbound message list is total over arbitrary history
entries (the Lean embedding of the loop is a total function): the result
is always the optional system turn, then exactly those entries whose role
is a string in {user, assistant, system} and whose content is a string —
kept unchanged and in original relative order via `filterMap` — then the
user turn; every other entry is silently skipped. -/
theorem request_construction_total_filter :
    (∀ (sp p : String) (h : List RawMessage),
      call_llm_messages sp h p =
        (if sp = "" then [] else [{ role := "system", content := sp }]) ++
          h.filterMap keep_history_entry ++ [{ role := "user", content := p }]) ∧
    (∀ (m : RawMessage) (r c : String),
      m.role = some (.str r) → m.content = some (.str c) →
      (r = "user" ∨ r = "assistant" ∨ r = "system") →
      keep_history_entry m = some { role := r, content := c }) ∧
    (∀ m : RawMessage,
      (¬ ∃ r c, m.role = some (.str r) ∧ m.content = some (.str c) ∧
        (r = "user" ∨ r = "assistant" ∨ r = "system")) →
      keep_history_entry m = none) := by
  refine ⟨fun sp p h => call_llm_messages_split sp p h, ?_, ?_⟩
  · intro m r c hr hc hrole
    simp [keep_history_entry, hr, hc, hrole]
  · intro m hno
    rcases hr : m.role with _ | v
    · simp [keep_history_entry, hr]
    · rcases v with r | _
      · rcases hc : m.content with _ | w
        · simp [keep_history_entry, hr, hc]
        · rcases w with cs | _
          · by_cases hrole : r = "user" ∨ r = "assistant" ∨ r = "system"
            · exact absurd ⟨r, cs, hr, hc, hrole⟩ hno
            · simp [keep_history_entry, hr, hc, hrole]
          · simp [keep_history_entry, hr, hc]
      · simp [keep_history_entry, hr]

/-- C8 witness: a history holding one valid entry among a wrong-role entry,
a non-string role, and an absent-keys entry contributes only the valid
entry; the filter keeps a valid entry unchanged and drops a wrong role. -/
theorem request_construction_total_filter_witness :
    call_llm_messages ""
      [{ role := some (.str "user"), content := some (.str "a") },
       { role := some (.str "tool"), content := some (.str "b") },
       { role := some .nonStr, content := some (.str "c") },
       { role := none, content := none }] "p" =
      [{ role := "user", content := "a" }, { role := "user", content := "p" }] ∧
    keep_history_entry
      { role := some (.str "assistant"), content := some (.str "x") } =
      some { role := "assistant", content := "x" } ∧
    keep_history_entry
      { role := some (.str "tool"), content := some (.str "b") } = none := by
  have h1 := request_construction_total_filter.1 ""
    "p" [{ role := some (.str "user"), content := some (.str "a") },
         { role := some (.str "tool"), content := some (.str "b") },
         { role := some .nonStr, content := some (.str "c") },
         { role := none, content := none }]
  have h2 := request_construction_total_filter.2.1
    { role := some (.str "assistant"), content := some (.str "x") }
    "assistant" "x" rfl rfl (by norm_num)
  have h3 := request_construction_total_filter.2.2
    { role := some (.str "tool"), content := some (.str "b") }
    (by rintro ⟨r, c, hr, hc, hrole⟩; cases hr; simp at hrole)
  exact ⟨h1.trans (by decide), h2, h3⟩

/-- C9 counterexample: the empty prompt against a transport that answers
with an immediate done line reaches, through one exhausted `ask_stream`
exchange, a history whose user and assistant turns both have content that
is empty after trimming. -/
theorem history_turn_content_may_be_empty :
    Reachable
      { system_prompt := "sp",
        history := (ask_stream { system_prompt := "sp", history := [] } ""
          { status := 200, lines := [Line.chunk { done := true }] } 1).history } ∧
    ∃ m ∈ (ask_stream { system_prompt := "sp", history := [] } ""
        { status := 200, lines := [Line.chunk { done := true }] } 1).history,
      (m.role = "user" ∨ m.role = "assistant") ∧ m.content.trim = "" := by
  constructor
  · exact Reachable.askStreamStep { system_prompt := "sp", history := [] } ""
      { status := 200, lines := [Line.chunk { done := true }] } 1
      (Reachable.init "sp")
  · refine ⟨{ role := "user", content := "" }, by decide, by decide, ?_⟩
    show ("" : String).trim = ""
    simp [String.trim, Substring.trim, Substring.trimLeft, Substring.trimRight,
      Substring.takeWhileAux, Substring.takeRightWhileAux, String.toSubstring,
      Substring.toString, String.extract]

/-- C9 amended: every turn persisted to a `ChatSession` history through any
sequence of `ask` and `ask_stream` calls has role `user` or `assistant`
(the appends write those roles verbatim); no non-emptiness of the content
after trimming is guaranteed — the user content is the prompt as given and
the assistant content the fragment concatenation, either of which may be
empty or whitespace. -/
theorem history_roles_user_assistant (s : ChatSession) (hs : Reachable s) :
    ∀ m ∈ s.history, m.role = "user" ∨ m.role = "assistant" := by
  induction hs with
  | init sp => simp
  | askStep s p resp h ih =>
    intro m hm
    simp only at hm
    rcases ask_history_shape s p resp with he | ⟨reply, he⟩
    · exact ih m (he ▸ hm)
    · rw [he] at hm
      rcases List.mem_append.mp hm with hold | hnew
      · exact ih m hold
      · simp only [List.mem_cons, List.not_mem_nil, or_false] at hnew
        rcases hnew with h1 | h1
        · left; rw [h1]
        · right; rw [h1]
  | askStreamStep s p resp pulls h ih =>
    intro m hm
    simp only at hm
    rcases ask_stream_history_shape s p resp pulls with he | ⟨reply, he⟩
    · exact ih m (he ▸ hm)
    · rw [he] at hm
      rcases List.mem_append.mp hm with hold | hnew
      · exact ih m hold
      · simp only [List.mem_cons, List.not_mem_nil, or_false] at hnew
        rcases hnew with h1 | h1
        · left; rw [h1]
        · right; rw [h1]

/-- C9 amended witness: the assistant turn in the history reached by one
successful `ask` exchange from a fresh session has role user or
assistant. -/
theorem history_roles_user_assistant_witness :
    ({ role := "assistant", content := "r" } : Message).role = "user" ∨
    ({ role := "assistant", content := "r" } : Message).role = "assistant" :=
  history_roles_user_assistant
    { system_prompt := "s",
      history := (ask { system_prompt := "s", history := [] } "q"
        { status := 200, body := some (some "r") }).history }
    (Reachable.askStep { system_prompt := "s", history := [] } "q"
      { status := 200, body := some (some "r") } (Reachable.init "s"))
    { role := "assistant", content := "r" } (by decide)

/-- C10: a never-iterated `ask_stream` generator has no effect — zero
pulls deliver nothing, leave history unchanged, raise nothing, and issue
no HTTP request; across all consumers, the single POST is issued exactly
when at least one pull is made. -/
theorem ask_stream_unconsumed_no_effect
    (s : ChatSession) (p : String) (resp : StreamResponse) :
    ask_stream s p resp 0 =
      { delivered := [], history := s.history, raised := false, posts := 0 } ∧
    ∀ pulls : Nat, (ask_stream s p resp pulls).posts =
      if pulls = 0 then 0 else 1 := by
  constructor
  · simp [ask_stream]
  · intro pulls
    by_cases h0 : pulls = 0
    · simp [ask_stream, h0]
    · simp only [ask_stream, h0, if_false]
      split
      · split <;> rfl
      · rfl

end Engine
